import Mathlib

/-!
Shallow embedding of the sms-handler repository (package smshandler):
the AT command transaction engine, listener-coordination handshake,
response parsers and outbound SMS submission, translated from the Go
source.  Strings are modelled with Lean `String` (byte positions
coincide with character positions on the ASCII data the protocol
carries); the Go standard-library string helpers used by the code are
re-implemented faithfully below.
-/

namespace SmsHandler

/-! ## Go standard-library string helpers (as used by the source) -/

/-- unicode.IsSpace restricted to the ASCII range, as used by
strings.TrimSpace on the protocol data. -/
def isSpaceGo (c : Char) : Bool :=
  c == ' ' || c == '\t' || c == '\n' || c == '\x0B' || c == '\x0C' || c == '\r'

/-- Go strings.TrimSpace. -/
def trimSpace (s : String) : String :=
  String.mk (((s.toList.dropWhile isSpaceGo).reverse.dropWhile isSpaceGo).reverse)

def isQuoteChar (c : Char) : Bool := c == '"'

/-- Go strings.Trim(s, "\x22"): strip leading and trailing double quotes. -/
def trimQuotes (s : String) : String :=
  String.mk (((s.toList.dropWhile isQuoteChar).reverse.dropWhile isQuoteChar).reverse)

/-- Go strings.Split with a single-character separator, on char lists. -/
def splitListChar (sep : Char) : List Char → List (List Char)
  | [] => [[]]
  | c :: rest =>
    let r := splitListChar sep rest
    if c == sep then [] :: r
    else (c :: r.headD []) :: r.tail

/-- Go strings.Split(s, sep) for a one-character separator. -/
def splitOnChar (sep : Char) (s : String) : List String :=
  (splitListChar sep s.toList).map String.mk

/-- Whether the second list is a prefix of the first (Go strings.HasPrefix
on char lists). -/
def startsWithL : List Char → List Char → Bool
  | _, [] => true
  | [], _ :: _ => false
  | a :: s, b :: p => a == b && startsWithL s p

/-- Go strings.HasPrefix. -/
def goStartsWith (s p : String) : Bool := startsWithL s.toList p.toList

/-- Whether the second list occurs as a contiguous sublist of the first. -/
def containsL : List Char → List Char → Bool
  | [], p => p.isEmpty
  | s@(_ :: rest), p => startsWithL s p || containsL rest p

/-- Go strings.Contains. -/
def containsSubstr (s sub : String) : Bool := containsL s.toList sub.toList

/-- Go strings.TrimPrefix. -/
def goTrimPre (s p : String) : String :=
  if goStartsWith s p then String.mk (s.toList.drop p.toList.length) else s

/-- Go s[n:] on an ASCII string (caller guards the bound, as the Go code
panics when n exceeds the length). -/
def goSlice (s : String) (n : Nat) : String := String.mk (s.toList.drop n)

/-- Go strings.Join. -/
def goJoin (sep : String) : List String → String
  | [] => ""
  | [a] => a
  | a :: b :: rest => a ++ sep ++ goJoin sep (b :: rest)

def digitsVal (ds : List Char) : Nat :=
  ds.foldl (fun a c => a * 10 + (c.toNat - 48)) 0

/-- fmt.Sscanf %d semantics: skip leading spaces, optional sign, then a
run of decimal digits; when no digit matches the scanned variable keeps
its zero value, which is what the source relies on. -/
def parseIntSkipSpaces (s : String) : Int :=
  let cs := s.toList.dropWhile isSpaceGo
  match cs with
  | '-' :: rest =>
    let ds := rest.takeWhile Char.isDigit
    if ds.isEmpty then 0 else -(digitsVal ds : Int)
  | '+' :: rest =>
    let ds := rest.takeWhile Char.isDigit
    if ds.isEmpty then 0 else (digitsVal ds : Int)
  | _ =>
    let ds := cs.takeWhile Char.isDigit
    if ds.isEmpty then 0 else (digitsVal ds : Int)

/-! ## Data model -/

/-- The SMS record (type SMS in the source). -/
structure SMS where
  Index : Int
  Status : String
  Sender : String
  Date : String
  Message : String
deriving Repr, DecidableEq

/-! ## Response parsers -/

/-- fmt.Sscanf(parts[0], "+CMGL: %d", &sms.Index): the literal prefix
must match, the format-string space skips whitespace, then %d scans an
integer; on any failure the index keeps its zero value. -/
def scanCMGLIndex (s : String) : Int :=
  if goStartsWith s ("+CMGL:") then parseIntSkipSpaces (goSlice s 6) else 0

/-- parseSMSList (sms.go): walk the response lines; every line starting
with +CMGL: that splits (naively, on every comma) into at least four
fields yields a record, taking the following line verbatim (trimmed) as
the body and skipping it. -/
def parseSMSListGo : List String → List SMS
  | [] => []
  | l :: rest =>
    let line := trimSpace l
    if goStartsWith line ("+CMGL:") then
      let parts := splitOnChar ',' line
      if parts.length ≥ 4 then
        let sms : SMS :=
          { Index := scanCMGLIndex (parts.getD 0 "")
            Status := trimQuotes (parts.getD 1 "")
            Sender := trimQuotes (parts.getD 2 "")
            Date := trimQuotes (parts.getD 3 "")
            Message := "" }
        match rest with
        | m :: rest2 => { sms with Message := trimSpace m } :: parseSMSListGo rest2
        | [] => [sms]
      else parseSMSListGo rest
    else parseSMSListGo rest

def parseSMSList (response : String) : List SMS :=
  parseSMSListGo (splitOnChar '\n' response)

/-- Outcome of the +CMGR response scan inside readSMSByIndex.  The Go
code slices parts[0][7:] unguarded, so a first field shorter than seven
bytes makes it panic; that case is kept distinct from the ordinary
"failed to parse SMS" error. -/
inductive CMGRParse where
  | ok (sms : SMS)
  | perr
  | panicked
deriving Repr, DecidableEq

/-- The line scan of readSMSByIndex (sms.go): first line starting with
+CMGR: that naively splits into at least three fields wins; the date is
always the third field; the following line (untrimmed in the list,
trimmed on use) is the body. -/
def parseCMGRLines (index : Int) : List String → CMGRParse
  | [] => CMGRParse.perr
  | l :: rest =>
    let line := trimSpace l
    if goStartsWith line ("+CMGR:") then
      let parts := splitOnChar ',' line
      if parts.length ≥ 3 then
        let p0 := parts.getD 0 ""
        if p0.toList.length < 7 then CMGRParse.panicked
        else
          CMGRParse.ok
            { Index := index
              Status := trimQuotes (goSlice p0 7)
              Sender := trimQuotes (parts.getD 1 "")
              Date := trimQuotes (parts.getD 2 "")
              Message := match rest with | m :: _ => trimSpace m | [] => "" }
      else parseCMGRLines index rest
    else parseCMGRLines index rest

def parseCMGRResponse (index : Int) (response : String) : CMGRParse :=
  parseCMGRLines index (splitOnChar '\n' response)

/-- splitRespectingQuotes (sms_test.go): split on the separator, but a
double quote toggles the in-quotes flag and separators inside quotes are
kept; quotes themselves stay in the fields; a trailing empty field is
dropped. -/
def sRQgo (sep : Char) : List Char → List Char → List String → Bool → List String
  | [], current, parts, _ =>
    if current.isEmpty then parts else parts ++ [String.mk current]
  | r :: rest, current, parts, inQuotes =>
    let inQ := if r == '"' then !inQuotes else inQuotes
    if r == sep && !inQ then sRQgo sep rest [] (parts ++ [String.mk current]) inQ
    else sRQgo sep rest (current ++ [r]) parts inQ

def splitRespectingQuotes (s : String) (sep : Char) : List String :=
  sRQgo sep s.toList [] [] false

/-- parseSMSHeader (sms_test.go): require the +CMGR: substring, strip
the prefix, quote-aware split; fewer than two fields is a parse error;
with four or more fields the date is the fourth, with exactly three it
is the third. -/
def parseSMSHeader (header : String) : Option SMS :=
  if !(containsSubstr header ("+CMGR:")) then none
  else
    let content := trimSpace (goTrimPre header ("+CMGR:"))
    let parts := splitRespectingQuotes content ','
    if parts.length < 2 then none
    else
      some
        { Index := 0
          Status := trimQuotes (parts.getD 0 "")
          Sender := trimQuotes (parts.getD 1 "")
          Date :=
            if parts.length ≥ 4 then trimQuotes (parts.getD 3 "")
            else if parts.length ≥ 3 then trimQuotes (parts.getD 2 "")
            else ""
          Message := "" }

/-- handleCMTIMessage header scan: naive comma split, at least two
fields required, index recovered by Sscanf %d from the second field
(zero when the scan fails — the Go code ignores the Sscanf error). -/
def cmtiIndex (line : String) : Option Int :=
  let parts := splitOnChar ',' line
  if parts.length ≥ 2 then some (parseIntSkipSpaces (parts.getD 1 "")) else none

/-! ## Listener pause/resume handshake

pauseListener / resumeListener (sms.go).  When the listening flag is
set, pauseListener sends on the unbuffered pauseChan and then receives
on resumeChan (the acknowledgment); resumeListener sends on resumeChan.
When the flag is clear both return without touching a channel.  The
channel operations each call performs, in program order: -/

inductive ChanOp where
  | sendPause
  | recvResume
  | sendResume
deriving Repr, DecidableEq

def pauseListener (listening : Bool) : List ChanOp :=
  if listening then [ChanOp.sendPause, ChanOp.recvResume] else []

def resumeListener (listening : Bool) : List ChanOp :=
  if listening then [ChanOp.sendResume] else []

/-! ## Unbuffered-channel rendezvous semantics

NewSMSHandler creates pauseChan and resumeChan with make(chan bool) —
unbuffered — so a send completes only when a distinct goroutine is
simultaneously at a receive on the same channel, and conversely.  A
goroutine is modelled by the sequence of channel operations it has left
to perform. -/

inductive ChanId where
  | pauseCh
  | resumeCh
deriving Repr, DecidableEq

inductive Op where
  | send (c : ChanId)
  | recv (c : ChanId)
deriving Repr, DecidableEq

/-- The channel operations of a handshake call, over the concrete
channels of the handler. -/
def chanOpToOp : ChanOp → Op
  | ChanOp.sendPause => Op.send ChanId.pauseCh
  | ChanOp.recvResume => Op.recv ChanId.resumeCh
  | ChanOp.sendResume => Op.send ChanId.resumeCh

def Thread := List Op

/-- One step of the unbuffered-channel semantics: a rendezvous between
a sender and a receiver on the same channel, in two distinct
goroutines; both advance past the matched operation. -/
inductive Step : List Thread → List Thread → Prop where
  | comm {ts : List Thread} {i j : Nat} {c : ChanId} {si rj : List Op}
      (hij : i ≠ j)
      (hi : ts.get? i = some (Op.send c :: si))
      (hj : ts.get? j = some (Op.recv c :: rj)) :
      Step ts ((ts.set i si).set j rj)

/-- A configuration is deadlocked when some goroutine still has pending
channel operations yet no rendezvous is possible. -/
def Deadlocked (ts : List Thread) : Prop :=
  (∃ t ∈ ts, t ≠ ([] : List Op)) ∧ ∀ ts2, ¬ Step ts ts2

/-! ## Command Transaction Engine (sendATCommand, sms.go) -/

/-- One ReadString('\n') result seen by the response-reading goroutine:
either a raw line or a read error. -/
inductive ReadEv where
  | line (raw : String)
  | readErr
deriving Repr, DecidableEq

/-- Why the response-reading goroutine signalled done. -/
inductive StopReason where
  | transport
  | tooManyEmpty
  | terminal
deriving Repr, DecidableEq

structure LoopState where
  response : String
  consecEmpty : Nat
deriving Repr, DecidableEq

def isTerminalLine (line : String) : Bool :=
  containsSubstr line ("OK") || containsSubstr line ("ERROR") ||
    containsSubstr line ("+CME ERROR")

/-- Processing of one successfully read line, translated from the body
of the response-reading goroutine: trim; skip the echo of the command;
count blank lines and give up after more than three in a row; otherwise
accumulate the line plus a newline and stop when it carries a terminal
token. -/
def stepLine (command : String) (st : LoopState) (raw : String) :
    LoopState × Option StopReason :=
  let line := trimSpace raw
  if line == command then (st, none)
  else if line == "" then
    (⟨st.response, st.consecEmpty + 1⟩,
     if st.consecEmpty + 1 > 3 then some StopReason.tooManyEmpty else none)
  else
    (⟨st.response ++ line ++ "\n", 0⟩,
     if isTerminalLine line then some StopReason.terminal else none)

/-- The response-reading goroutine over a finite stream of read
results.  An exhausted stream with no stop reason models the goroutine
still blocked in ReadString (nothing more arrived). -/
def runLoop (command : String) : List ReadEv → LoopState → LoopState × Option StopReason
  | [], st => (st, none)
  | ReadEv.readErr :: _, st => (st, some StopReason.transport)
  | ReadEv.line raw :: rest, st =>
    match stepLine command st raw with
    | (st2, some r) => (st2, some r)
    | (st2, none) => runLoop command rest st2

/-- The error component of sendATCommand's result. -/
inductive ATErr where
  | writeFailed
  | timeout
deriving Repr, DecidableEq

/-- sendATCommand, untimed view: writeOk tells whether port.Write
succeeded; the stream holds every read result that arrives before the
10-second deadline.  When the goroutine signals done (for any of its
three reasons — including a read error) the select returns the trimmed
response with a nil error; when the stream is exhausted without a stop
the deadline fires and the partial text is returned with the timeout
error. -/
def sendATCommandCore (command : String) (writeOk : Bool) (stream : List ReadEv) :
    String × Option ATErr :=
  if writeOk = false then ("", some ATErr.writeFailed)
  else
    match runLoop command stream ⟨"", 0⟩ with
    | (st, some _) => (trimSpace st.response, none)
    | (st, none) => (trimSpace st.response, some ATErr.timeout)

/-! ## Timed view of sendATCommand (for the 10-second deadline) -/

/-- The 10 * time.Second deadline of sendATCommand, in milliseconds. -/
def atTimeoutMs : Nat := 10000

/-- Keep the read results whose cumulative arrival time is within the
budget (each entry carries the delay since the previous one). -/
def prefixWithin : Nat → List (Nat × ReadEv) → List (Nat × ReadEv)
  | _, [] => []
  | budget, (d, e) :: rest =>
    if d ≤ budget then (d, e) :: prefixWithin (budget - d) rest else []

/-- runLoop with arrival times: also reports the instant at which the
goroutine signalled done. -/
def runLoopT (command : String) :
    List (Nat × ReadEv) → Nat → LoopState → LoopState × Option StopReason × Nat
  | [], now, st => (st, none, now)
  | (d, e) :: rest, now, st =>
    match e with
    | ReadEv.readErr => (st, some StopReason.transport, now + d)
    | ReadEv.line raw =>
      match stepLine command st raw with
      | (st2, some r) => (st2, some r, now + d)
      | (st2, none) => runLoopT command rest (now + d) st2

/-- sendATCommand, timed view: the third component is the instant the
select statement returns.  Events arriving after the deadline are never
seen; if the goroutine has not signalled done by the deadline the
timeout case fires at atTimeoutMs with the text accumulated so far. -/
def sendATCommandTimed (command : String) (writeOk : Bool)
    (stream : List (Nat × ReadEv)) : String × Option ATErr × Nat :=
  if writeOk = false then ("", some ATErr.writeFailed, 0)
  else
    match runLoopT command (prefixWithin atTimeoutMs stream) 0 ⟨"", 0⟩ with
    | (st, some _, t) => (trimSpace st.response, none, t)
    | (st, none, _) => (trimSpace st.response, some ATErr.timeout, atTimeoutMs)

/-! ## Event traces of the public operations -/

/-- Externally visible actions of one operation: the handshake calls
and the byte strings successfully written to the transport. -/
inductive Ev where
  | pauseCall
  | resumeCall
  | writeData (s : String)
deriving Repr, DecidableEq

/-- sendATCommand with its event trace: pauseListener on entry, the
command write (command + CRLF) when it succeeds, and the deferred
resumeListener on every exit path. -/
def sendATCommandEv (command : String) (writeOk : Bool) (stream : List ReadEv) :
    (String × Option ATErr) × List Ev :=
  (sendATCommandCore command writeOk stream,
   if writeOk then
     [Ev.pauseCall, Ev.writeData (command ++ "\r\n"), Ev.resumeCall]
   else
     [Ev.pauseCall, Ev.resumeCall])

/-- ReadSMS: AT+CMGL="ALL" then parseSMSList; a transaction error is
propagated with no records. -/
def ReadSMS (writeOk : Bool) (stream : List ReadEv) :
    (List SMS × Option ATErr) × List Ev :=
  let r := sendATCommandEv ("AT+CMGL=\"ALL\"") writeOk stream
  (match r.1 with
   | (_, some e) => ([], some e)
   | (resp, none) => (parseSMSList resp, none), r.2)

/-- ReadNewSMS: AT+CMGL="REC UNREAD" then parseSMSList. -/
def ReadNewSMS (writeOk : Bool) (stream : List ReadEv) :
    (List SMS × Option ATErr) × List Ev :=
  let r := sendATCommandEv ("AT+CMGL=\"REC UNREAD\"") writeOk stream
  (match r.1 with
   | (_, some e) => ([], some e)
   | (resp, none) => (parseSMSList resp, none), r.2)

/-- DeleteSMS: AT+CMGD=index; only the error is surfaced. -/
def DeleteSMS (index : Int) (writeOk : Bool) (stream : List ReadEv) :
    Option ATErr × List Ev :=
  let r := sendATCommandEv ("AT+CMGD=" ++ toString index) writeOk stream
  (r.1.2, r.2)

def GetModemInfo (writeOk : Bool) (stream : List ReadEv) :
    (String × Option ATErr) × List Ev :=
  sendATCommandEv ("ATI") writeOk stream

def GetSignalStrength (writeOk : Bool) (stream : List ReadEv) :
    (String × Option ATErr) × List Ev :=
  sendATCommandEv ("AT+CSQ") writeOk stream

/-- readSMSByIndex: AT+CMGR=index, then the +CMGR line scan; a
transaction error becomes a parse failure for the caller
(handleCMTIMessage only checks err == nil). -/
def readSMSByIndex (index : Int) (writeOk : Bool) (stream : List ReadEv) :
    CMGRParse × List Ev :=
  let r := sendATCommandEv ("AT+CMGR=" ++ toString index) writeOk stream
  (match r.1 with
   | (_, some _) => CMGRParse.perr
   | (resp, none) => parseCMGRResponse index resp, r.2)

/-! ## handleCMTMessage (direct-delivery notification) -/

/-- The body-assembly loop of handleCMTMessage over the lines
successfully read before the 2-second deadline (exhaustion of the list
is the timeout case).  Returns the collected body lines when the
callback fires, none when the partial notification is dropped. -/
def assembleBody : List String → List String → Option (List String)
  | [], acc => if acc.isEmpty then none else some acc
  | l :: rest, acc =>
    let line := trimSpace l
    if line == "" && acc.isEmpty then assembleBody rest acc
    else if goStartsWith line ("+CMT:") || goStartsWith line ("+CMTI:") ||
        goStartsWith line ("OK") || goStartsWith line ("ERROR") ||
        goStartsWith line ("AT+") then
      if acc.isEmpty then none else some acc
    else if line != "" then assembleBody rest (acc ++ [line])
    else some acc

/-- handleCMTMessage: naive comma split of the header (at least three
fields), sender recovered by slicing off the six-byte "+CMT: " prefix
(headers of six or fewer bytes are dropped), date from the third field,
then the body assembly; the result is the record passed to the callback
(none when no callback fires). -/
def handleCMTMessage (line : String) (incoming : List String) : Option SMS :=
  let parts := splitOnChar ',' line
  if parts.length < 3 then none
  else
    let senderPart := parts.getD 0 ""
    if senderPart.toList.length > 6 then
      match assembleBody incoming [] with
      | some msgs =>
        some
          { Index := 0
            Status := ""
            Sender := trimQuotes (goSlice senderPart 6)
            Date := trimQuotes (parts.getD 2 "")
            Message := goJoin ("\n") msgs }
      | none => none
    else none

/-! ## SendSMS (sms.go) -/

/-- The prompt-polling loop: bytes are appended one at a time and the
loop stops as soon as the accumulated buffer contains '>'.  Input: the
bytes the port yields during the 10-second window.  Output: the final
buffer and whether the prompt was received. -/
def promptScan : List Char → List Char → List Char × Bool
  | [], acc => (acc, false)
  | b :: rest, acc =>
    let acc2 := acc ++ [b]
    if acc2.contains '>' then (acc2, true) else promptScan rest acc2

/-- The final 30-second response loop of SendSMS: chunks are
accumulated and after each one the text is checked — +CMGS: anywhere
means success; otherwise ERROR / +CMS ERROR means failure carrying the
text; a response containing only OK keeps the loop waiting.  Returns
none when the chunk list (what arrived within the window) is exhausted
without a verdict. -/
def smsRespOutcome : List String → String → Option (Option String)
  | [], _ => none
  | c :: rest, acc =>
    let acc2 := acc ++ c
    if containsSubstr acc2 ("+CMGS:") then some none
    else if containsSubstr acc2 ("ERROR") || containsSubstr acc2 ("+CMS ERROR") then
      some (some acc2)
    else smsRespOutcome rest acc2

inductive SendErr where
  | writeCmdFailed
  | promptTimeout (buf : String)
  | writeMsgFailed
  | smsFailed (resp : String)
  | respTimeout
deriving Repr, DecidableEq

/-- The transport behaviour a SendSMS run encounters. -/
structure SendSMSIn where
  writeCmdOk : Bool
  promptBytes : List Char
  writeMsgOk : Bool
  finalChunks : List String
deriving Repr

/-- SendSMS: pause the listener; write AT+CMGS="number" followed by a
single carriage return; poll byte-by-byte for the '>' prompt (a miss is
a hard failure); write the message followed by the Ctrl-Z byte 0x1A;
then run the response loop.  The deferred resumeListener closes every
path. -/
def SendSMS (phone msg : String) (inp : SendSMSIn) : Option SendErr × List Ev :=
  let cmd := "AT+CMGS=\"" ++ phone ++ "\""
  if inp.writeCmdOk = false then
    (some SendErr.writeCmdFailed, [Ev.pauseCall, Ev.resumeCall])
  else
    let prompt := promptScan inp.promptBytes []
    if prompt.2 = false then
      (some (SendErr.promptTimeout (String.mk prompt.1)),
       [Ev.pauseCall, Ev.writeData (cmd ++ "\r"), Ev.resumeCall])
    else if inp.writeMsgOk = false then
      (some SendErr.writeMsgFailed,
       [Ev.pauseCall, Ev.writeData (cmd ++ "\r"), Ev.resumeCall])
    else
      let evs := [Ev.pauseCall, Ev.writeData (cmd ++ "\r"),
                  Ev.writeData (msg ++ "\x1A"), Ev.resumeCall]
      match smsRespOutcome inp.finalChunks "" with
      | some none => (none, evs)
      | some (some r) => (some (SendErr.smsFailed r), evs)
      | none => (some SendErr.respTimeout, evs)

/-! ## Derived trace views -/

/-- The channel operations a trace performs, given the listening flag. -/
def chanOpsOfEv (listening : Bool) : Ev → List ChanOp
  | Ev.pauseCall => pauseListener listening
  | Ev.resumeCall => resumeListener listening
  | Ev.writeData _ => []

def chanOpsOfTrace (listening : Bool) (evs : List Ev) : List ChanOp :=
  (evs.map (chanOpsOfEv listening)).flatten

/-- The byte strings written to the transport, in order. -/
def writesOf (evs : List Ev) : List String :=
  evs.filterMap fun e =>
    match e with
    | Ev.writeData s => some s
    | _ => none

/-- A trace opens with the pauseListener call, closes with the
resumeListener call, performs each exactly once, and everything in
between is transport writes. -/
def traceBalanced (evs : List Ev) : Prop :=
  ∃ mid : List Ev,
    evs = Ev.pauseCall :: mid ++ [Ev.resumeCall] ∧
    ∀ e ∈ mid, ∃ s, e = Ev.writeData s

/-! ## Specification-side definitions (used for refinement claims) -/

/-- Modelled from the claim wording for the response-reading loop of
sendATCommand: discard echo lines, stop after more than three
consecutive blanks, accumulate trimmed non-empty lines each followed by
a newline, stop at the first line containing a terminal substring and
include it. -/
def specRun (command : String) : List String → String → Nat → String × Option StopReason
  | [], resp, _ => (resp, none)
  | l :: ls, resp, blanks =>
    let t := trimSpace l
    if t == command then specRun command ls resp blanks
    else if t == "" then
      if blanks + 1 > 3 then (resp, some StopReason.tooManyEmpty)
      else specRun command ls resp (blanks + 1)
    else if isTerminalLine t then (resp ++ t ++ "\n", some StopReason.terminal)
    else specRun command ls (resp ++ t ++ "\n") 0

/-! ## Helper lemmas -/

theorem string_mk_append (a b : List Char) :
    String.mk a ++ String.mk b = String.mk (a ++ b) := rfl

theorem string_mk_ne_empty (a : List Char) (h : a ≠ []) : String.mk a ≠ "" := by
  intro hc
  apply h
  have h2 : (String.mk a).data = ("" : String).data := by rw [hc]
  simpa using h2

theorem str_append_ne (a b : String) (ha : a ≠ "") : a ++ b ≠ "" := by
  cases a with
  | mk la =>
    cases b with
    | mk lb =>
      rw [string_mk_append]
      refine string_mk_ne_empty _ ?_
      intro h
      rcases List.append_eq_nil.mp h with ⟨h1, _⟩
      apply ha
      rw [h1]

theorem goJoin_ne_empty (sep : String) :
    ∀ msgs : List String, msgs ≠ [] → (∀ x ∈ msgs, x ≠ "") → goJoin sep msgs ≠ "" := by
  intro msgs
  match msgs with
  | [] => intro h _; exact absurd rfl h
  | [a] =>
    intro _ hx
    simpa [goJoin] using hx a (by simp)
  | a :: b :: t =>
    intro _ hx
    have ha : a ≠ "" := hx a (by simp)
    have hunf : goJoin sep (a :: b :: t) = a ++ sep ++ goJoin sep (b :: t) := by
      simp [goJoin]
    rw [hunf]
    exact str_append_ne _ _ (str_append_ne _ _ ha)

theorem runLoop_append (command : String) :
    ∀ (a b : List ReadEv) (st : LoopState),
      runLoop command (a ++ b) st =
        match runLoop command a st with
        | (st1, none) => runLoop command b st1
        | (st1, some r) => (st1, some r) := by
  intro a
  induction a with
  | nil => intro b st; rfl
  | cons e a ih =>
    intro b st
    cases e with
    | readErr => rfl
    | line raw =>
      simp only [List.cons_append, runLoop]
      rcases h : stepLine command st raw with ⟨st2, orr⟩
      cases orr with
      | none => simpa using ih b st2
      | some r => rfl

/-! ## Claim C1 -/

/-- Claim C1 as stated is false on the code: parseSMSList splits its
header line naively on every comma, so the quoted date value
"24/01/15,10:30:45+00" is broken at its inner comma — the header has
five naive fields where the quote-aware split yields four, and the
record's Date keeps only the part before the quoted comma. -/
theorem c1_counterexample :
    parseSMSList
        ("+CMGL: 1,\"REC READ\",\"+15551234567\",\"24/01/15,10:30:45+00\"\nHello\nOK")
      = [{ Index := 1, Status := "REC READ", Sender := "+15551234567",
           Date := "24/01/15", Message := "Hello" }] ∧
    (splitOnChar ','
        ("+CMGL: 1,\"REC READ\",\"+15551234567\",\"24/01/15,10:30:45+00\"")).length = 5 ∧
    (splitRespectingQuotes
        ("1,\"REC READ\",\"+15551234567\",\"24/01/15,10:30:45+00\"") ',').length = 4 ∧
    ("24/01/15" : String) ≠ "24/01/15,10:30:45+00" := by decide

theorem sRQgo_quoted (rest : List Char) (parts : List String) :
    ∀ (cs current : List Char), (∀ c ∈ cs, c ≠ '"') →
      sRQgo ',' (cs ++ rest) current parts true
        = sRQgo ',' rest (current ++ cs) parts true := by
  intro cs
  induction cs with
  | nil => intro current _; simp
  | cons c cs ih =>
    intro current h
    have hc : (c == '"') = false := by
      simpa using h c (by simp)
    simp only [List.cons_append, sRQgo, hc, Bool.false_eq_true, if_false, Bool.not_true,
      Bool.and_false, List.append_eq]
    rw [ih (current ++ [c]) (fun x hx => h x (by simp [hx]))]
    simp

/-- Amended claim C1: quote-aware splitting holds in parseSMSHeader
(which uses splitRespectingQuotes) — concretely, the repository's own
test vector parses with the full quoted date kept as one field, and in
general a double-quoted field enclosing any characters other than a
quote (commas included) is returned as a single field — while the
parsers in sms.go (parseSMSList, readSMSByIndex, handleCMTMessage)
split naively on every comma (c1_counterexample). -/
theorem c1_amended :
    parseSMSHeader ("+CMGR: \"REC READ\",\"+1234567890\",\"\",\"24/01/15,10:30:45+00\"")
      = some { Index := 0, Status := "REC READ", Sender := "+1234567890",
               Date := "24/01/15,10:30:45+00", Message := "" } ∧
    ∀ mid : List Char, (∀ c ∈ mid, c ≠ '"') →
      splitRespectingQuotes (String.mk ('"' :: mid ++ ['"'])) ','
        = [String.mk ('"' :: mid ++ ['"'])] := by
  constructor
  · decide
  · intro mid h
    show sRQgo ',' ('"' :: mid ++ ['"']) [] [] false = _
    simp only [sRQgo]
    norm_num
    rw [sRQgo_quoted ['"'] [] mid ['"'] h]
    simp [sRQgo]

/-- Witness for the quote-aware half of the amended claim C1, at the
spec's own example: the field "a,b" stays one field. -/
theorem c1_witness :
    splitRespectingQuotes (String.mk ['"', 'a', ',', 'b', '"']) ','
      = [String.mk ['"', 'a', ',', 'b', '"']] :=
  c1_amended.2 ['a', ',', 'b'] (by decide)

/-! ## Claim C2 -/

/-- Claim C2 is the intent but the code deadlocks.  On the notification
line +CMTI: "SM",1 (while listening) the coordinator goroutine itself
runs handleCMTIMessage → readSMSByIndex → sendATCommand →
pauseListener, whose first channel operation is a send on the
unbuffered pauseChan.  The only receive on pauseChan in the program is
the coordinator loop's own select — executed by this same goroutine,
which is busy inside the handler — so under the rendezvous semantics of
unbuffered channels the single-thread configuration has a pending
operation and no possible step: the nested pause blocks forever instead
of being acknowledged. -/
theorem c2_nested_pause_deadlocks :
    cmtiIndex ("+CMTI: \"SM\",1") = some 1 ∧
    (pauseListener true).map chanOpToOp
      = [Op.send ChanId.pauseCh, Op.recv ChanId.resumeCh] ∧
    ∀ rest : List Op,
      Deadlocked [((pauseListener true).map chanOpToOp ++ rest : Thread)] := by
  have hred : (pauseListener true).map chanOpToOp
      = [Op.send ChanId.pauseCh, Op.recv ChanId.resumeCh] := by decide
  refine ⟨by decide, hred, ?_⟩
  intro rest
  rw [hred]
  constructor
  · exact ⟨Op.send ChanId.pauseCh :: Op.recv ChanId.resumeCh :: rest, by simp, by simp⟩
  · intro ts2 hstep
    cases hstep with
    | comm hij hi hj =>
      rename_i i j c si rj
      have hi0 : i = 0 := by
        cases i with
        | zero => rfl
        | succ n => simp [List.get?] at hi
      have hj0 : j = 0 := by
        cases j with
        | zero => rfl
        | succ n => simp [List.get?] at hj
      exact hij (hi0.trans hj0.symm)

/-! ## Claim C3 -/

/-- Claim C3 fails on the code for the read half: when ReadString
returns an error the response-reading goroutine merely signals done and
breaks, so the select returns the accumulated text with a nil error —
here a read error before any terminal token yields ("", nil), not a
non-nil error. -/
theorem c3_counterexample :
    runLoop ("AT") [ReadEv.readErr] ⟨"", 0⟩ = (⟨"", 0⟩, some StopReason.transport) ∧
    sendATCommandCore ("AT") true [ReadEv.readErr] = ("", none) := by decide

/-- Amended claim C3: a failed write of the command is fatal and
propagated (non-nil error), but a read failure before a terminal token
is not — it stops the read loop and sendATCommand returns the partial
text accumulated so far with a nil error. -/
theorem c3_amended :
    (∀ command stream,
       sendATCommandCore command false stream = ("", some ATErr.writeFailed)) ∧
    ∀ (command : String) (good : List String) (rest : List ReadEv) (st : LoopState),
      runLoop command (good.map ReadEv.line) ⟨"", 0⟩ = (st, none) →
      sendATCommandCore command true (good.map ReadEv.line ++ ReadEv.readErr :: rest)
        = (trimSpace st.response, none) := by
  constructor
  · intro command stream
    rfl
  · intro command good rest st h
    unfold sendATCommandCore
    rw [if_neg (by simp), runLoop_append, h]
    simp [runLoop]

/-- Witness for the amended claim C3: one good line, then a read error
— the call returns the partial text with a nil error. -/
theorem c3_witness :
    sendATCommandCore ("AT+CSQ") true [ReadEv.line ("+CSQ: 4,0"), ReadEv.readErr]
      = ("+CSQ: 4,0", none) :=
  (c3_amended.2 ("AT+CSQ") ["+CSQ: 4,0"] [] ⟨"+CSQ: 4,0\n", 0⟩ (by decide)).trans
    (by decide)

/-! ## Claim C4 -/

/-- Claim C4 fails on the code: ReadSMS (via parseSMSList) hands the
caller a record whose Sender is empty — any +CMGL header with an empty
quoted sender field produces a record, since parseSMSList only checks
the naive field count. -/
theorem c4_counterexample :
    (ReadSMS true
        [ReadEv.line ("+CMGL: 1,\"REC READ\",\"\",\"24/01/15,10:30:45+00\""),
         ReadEv.line ("hello"), ReadEv.line ("OK")]).1
      = ([{ Index := 1, Status := "REC READ", Sender := "",
            Date := "24/01/15", Message := "hello" }], none) ∧
    ({ Index := 1, Status := "REC READ", Sender := "",
       Date := "24/01/15", Message := "hello" } : SMS).Sender = "" := by decide

theorem assembleBody_nonempty :
    ∀ (incoming acc out : List String),
      assembleBody incoming acc = some out →
      (∀ x ∈ acc, x ≠ "") →
      out ≠ [] ∧ ∀ x ∈ out, x ≠ "" := by
  intro incoming
  induction incoming with
  | nil =>
    intro acc out h hacc
    simp only [assembleBody] at h
    rcases he : acc.isEmpty with _ | _
    · rw [he] at h
      simp at h
      subst h
      exact ⟨by simpa using he, hacc⟩
    · rw [he] at h
      simp at h
  | cons l rest ih =>
    intro acc out h hacc
    simp only [assembleBody] at h
    by_cases h1 : (trimSpace l == "" && acc.isEmpty) = true
    · rw [if_pos h1] at h
      exact ih acc out h hacc
    · rw [if_neg h1] at h
      by_cases h2 : (goStartsWith (trimSpace l) ("+CMT:")
          || goStartsWith (trimSpace l) ("+CMTI:")
          || goStartsWith (trimSpace l) ("OK")
          || goStartsWith (trimSpace l) ("ERROR")
          || goStartsWith (trimSpace l) ("AT+")) = true
      · rw [if_pos h2] at h
        rcases he : acc.isEmpty with _ | _
        · rw [he] at h
          simp at h
          subst h
          exact ⟨by simpa using he, hacc⟩
        · rw [he] at h
          simp at h
      · rw [if_neg h2] at h
        by_cases h3 : (trimSpace l != "") = true
        · rw [if_pos h3] at h
          refine ih _ out h ?_
          intro x hx
          rcases List.mem_append.mp hx with hx1 | hx2
          · exact hacc x hx1
          · have : x = trimSpace l := by simpa using hx2
            subst this
            simpa using h3
        · rw [if_neg h3] at h
          simp only [Option.some.injEq] at h
          subst h
          have hline : (trimSpace l == "") = true := by
            simpa using h3
          have hne : acc.isEmpty = false := by
            rcases he : acc.isEmpty with _ | _
            · rfl
            · exact absurd (by simp [hline, he]) h1
          exact ⟨by simpa using hne, hacc⟩

/-- Amended claim C4: the non-emptiness invariant does not hold for the
records parseSMSList and readSMSByIndex hand out (c4_counterexample:
empty Sender); what the code does guarantee is that a +CMT:
notification only reaches the callback with a non-empty Message — the
body-assembly loop fires the callback only once at least one non-blank
body line was collected. -/
theorem c4_amended (line : String) (incoming : List String) (sms : SMS)
    (h : handleCMTMessage line incoming = some sms) : sms.Message ≠ "" := by
  unfold handleCMTMessage at h
  by_cases h1 : (splitOnChar ',' line).length < 3
  · rw [if_pos h1] at h
    simp at h
  · rw [if_neg h1] at h
    by_cases h2 : ((splitOnChar ',' line).getD 0 "").toList.length > 6
    · rw [if_pos h2] at h
      rcases h3 : assembleBody incoming [] with _ | msgs
      · rw [h3] at h
        simp at h
      · rw [h3] at h
        simp only [Option.some.injEq] at h
        have hinv := assembleBody_nonempty incoming [] msgs h3 (by simp)
        have : sms.Message = goJoin ("\n") msgs := by rw [← h]
        rw [this]
        exact goJoin_ne_empty _ msgs hinv.1 hinv.2
    · rw [if_neg h2] at h
      simp at h

/-- Witness for the amended claim C4 at a concrete +CMT: delivery. -/
theorem c4_witness :
    ({ Index := 0, Status := "", Sender := "+11234567890",
       Date := "25/07/21", Message := "Hello" } : SMS).Message ≠ "" :=
  c4_amended ("+CMT: \"+11234567890\",\"\",\"25/07/21,21:07:17-28\"")
    ["Hello", ""] _ (by decide)

/-! ## Claim C5 -/

/-- Claim C5 fails on the code for readSMSByIndex: its header scan
always takes the date from the third naive comma field, so on a header
with four fields (optional alpha tag present) the parsed Date is the
alpha tag "John", not the fourth field "24/01/15". -/
theorem c5_counterexample :
    parseCMGRResponse 5
        ("+CMGR: \"REC READ\",\"+123\",\"John\",\"24/01/15\"\nBody line\nOK")
      = CMGRParse.ok { Index := 5, Status := "REC READ", Sender := "+123",
                       Date := "John", Message := "Body line" } ∧
    (splitOnChar ',' ("+CMGR: \"REC READ\",\"+123\",\"John\",\"24/01/15\"")).length = 4 ∧
    trimQuotes ((splitOnChar ','
        ("+CMGR: \"REC READ\",\"+123\",\"John\",\"24/01/15\"")).getD 3 "")
      = "24/01/15" ∧
    ("John" : String) ≠ "24/01/15" := by decide

/-- Amended claim C5: the 4-or-more/exactly-3 field policy for the date
holds in parseSMSHeader (over the quote-aware fields), while
readSMSByIndex always takes the date from the third naive comma field
regardless of how many fields the header has. -/
theorem c5_amended :
    (∀ header sms, parseSMSHeader header = some sms →
       4 ≤ (splitRespectingQuotes (trimSpace (goTrimPre header ("+CMGR:"))) ',').length →
       sms.Date = trimQuotes
         ((splitRespectingQuotes (trimSpace (goTrimPre header ("+CMGR:"))) ',').getD 3 "")) ∧
    (∀ header sms, parseSMSHeader header = some sms →
       (splitRespectingQuotes (trimSpace (goTrimPre header ("+CMGR:"))) ',').length = 3 →
       sms.Date = trimQuotes
         ((splitRespectingQuotes (trimSpace (goTrimPre header ("+CMGR:"))) ',').getD 2 "")) ∧
    ∀ (idx : Int) (l : String) (rest : List String) (sms : SMS),
      parseCMGRLines idx (l :: rest) = CMGRParse.ok sms →
      goStartsWith (trimSpace l) ("+CMGR:") = true →
      3 ≤ (splitOnChar ',' (trimSpace l)).length →
      sms.Date = trimQuotes ((splitOnChar ',' (trimSpace l)).getD 2 "") := by
  refine ⟨?_, ?_, ?_⟩
  · intro header sms h hlen
    unfold parseSMSHeader at h
    by_cases h1 : containsSubstr header ("+CMGR:") = true
    · rw [h1] at h
      simp only [Bool.not_true, Bool.false_eq_true, if_false] at h
      rw [if_neg (by omega)] at h
      simp only [Option.some.injEq] at h
      rw [← h]
      simp only []
      rw [if_pos hlen]
    · simp only [Bool.not_eq_true] at h1
      rw [h1] at h
      simp at h
  · intro header sms h hlen
    unfold parseSMSHeader at h
    by_cases h1 : containsSubstr header ("+CMGR:") = true
    · rw [h1] at h
      simp only [Bool.not_true, Bool.false_eq_true, if_false] at h
      rw [if_neg (by omega)] at h
      simp only [Option.some.injEq] at h
      rw [← h]
      simp only []
      rw [if_neg (by omega), if_pos (by omega)]
    · simp only [Bool.not_eq_true] at h1
      rw [h1] at h
      simp at h
  · intro idx l rest sms h hpre hlen
    simp only [parseCMGRLines, hpre, if_true] at h
    rw [if_pos hlen] at h
    by_cases h2 : ((splitOnChar ',' (trimSpace l)).getD 0 "").toList.length < 7
    · rw [if_pos h2] at h
      simp at h
    · rw [if_neg h2] at h
      simp only [CMGRParse.ok.injEq] at h
      rw [← h]

/-- Witness for the parseSMSHeader half of the amended claim C5, at the
repository's own four-field test vector. -/
theorem c5_witness :
    ({ Index := 0, Status := "REC READ", Sender := "+1234567890",
       Date := "24/01/15,10:30:45+00", Message := "" } : SMS).Date
      = trimQuotes ((splitRespectingQuotes (trimSpace (goTrimPre
          ("+CMGR: \"REC READ\",\"+1234567890\",\"\",\"24/01/15,10:30:45+00\"")
          ("+CMGR:"))) ',').getD 3 "") :=
  c5_amended.1 ("+CMGR: \"REC READ\",\"+1234567890\",\"\",\"24/01/15,10:30:45+00\"")
    _ (by decide) (by decide)

/-! ## Claim C6 -/

theorem runLoop_spec_general (command : String) :
    ∀ (lines : List String) (resp : String) (blanks : Nat),
      ((runLoop command (lines.map ReadEv.line) ⟨resp, blanks⟩).1.response,
       (runLoop command (lines.map ReadEv.line) ⟨resp, blanks⟩).2)
        = specRun command lines resp blanks := by
  intro lines
  induction lines with
  | nil => intro resp blanks; rfl
  | cons l ls ih =>
    intro resp blanks
    by_cases h1 : (trimSpace l == command) = true
    · simpa [runLoop, stepLine, specRun, h1] using ih resp blanks
    · by_cases h2 : (trimSpace l == "") = true
      · by_cases h3 : blanks + 1 > 3
        · simp [runLoop, stepLine, specRun, h1, h2, h3]
        · simpa [runLoop, stepLine, specRun, h1, h2, h3] using ih resp (blanks + 1)
      · by_cases h4 : isTerminalLine (trimSpace l) = true
        · simp [runLoop, stepLine, specRun, h1, h2, h4]
        · simpa [runLoop, stepLine, specRun, h1, h2, h4]
            using ih (resp ++ trimSpace l ++ "\n") 0

/-- Claim C6: the response-reading loop of sendATCommand behaves
exactly as described — echo lines (equal to the command after
trimming) are discarded, more than three consecutive blank lines stop
the read, every other trimmed non-empty line is accumulated with a
newline appended, and the first line containing "OK", "ERROR" or
"+CME ERROR" is terminal and included — as witnessed by equality with
specRun, the direct transcription of that description. -/
theorem c6_loop_matches_spec (command : String) (lines : List String) :
    ((runLoop command (lines.map ReadEv.line) ⟨"", 0⟩).1.response,
     (runLoop command (lines.map ReadEv.line) ⟨"", 0⟩).2)
      = specRun command lines "" 0 :=
  runLoop_spec_general command lines "" 0

/-! ## Claim C7 -/

/-- Claim C7: when the response-reading goroutine has not signalled
done on anything arriving within the 10-second window, sendATCommand
returns at the deadline — neither immediately nor indefinitely, at
atTimeoutMs = 10000 ms — carrying the partial text accumulated so far
together with the timeout error. -/
theorem c7_deadline_timeout (command : String) (stream : List (Nat × ReadEv))
    (st : LoopState) (tEnd : Nat)
    (h : runLoopT command (prefixWithin atTimeoutMs stream) 0 ⟨"", 0⟩ = (st, none, tEnd)) :
    sendATCommandTimed command true stream
      = (trimSpace st.response, some ATErr.timeout, atTimeoutMs) ∧
    atTimeoutMs = 10000 ∧ 0 < atTimeoutMs := by
  refine ⟨?_, rfl, by decide⟩
  unfold sendATCommandTimed
  rw [if_neg (by simp), h]

/-- Witness for claim C7: a single non-terminal line arriving at
100 ms; the call returns that partial text, the timeout error, at the
10-second mark. -/
theorem c7_witness :
    sendATCommandTimed ("AT") true [(100, ReadEv.line ("data"))]
      = ("data", some ATErr.timeout, 10000) :=
  ((c7_deadline_timeout ("AT") [(100, ReadEv.line ("data"))] ⟨"data\n", 0⟩ 100
      (by decide)).1).trans (by decide)

/-! ## Claim C8 -/

/-- Claim C8: every sendATCommand and every SendSMS trace opens with
the pauseListener call and closes with the single matching
resumeListener call (the deferred counterpart), on every exit path:
success, write failure, prompt timeout, protocol error and response
timeout alike. -/
theorem c8_pause_resume_balanced :
    (∀ command writeOk stream, traceBalanced (sendATCommandEv command writeOk stream).2) ∧
    ∀ phone msg inp, traceBalanced (SendSMS phone msg inp).2 := by
  constructor
  · intro command writeOk stream
    cases writeOk with
    | false => exact ⟨[], rfl, by simp⟩
    | true =>
      exact ⟨[Ev.writeData (command ++ "\r\n")], rfl,
        fun e he => ⟨command ++ "\r\n", by simpa using he⟩⟩
  · intro phone msg inp
    by_cases hw : inp.writeCmdOk = false
    · exact ⟨[], by simp [SendSMS, hw], by simp⟩
    · by_cases hp : (promptScan inp.promptBytes []).2 = false
      · refine ⟨[Ev.writeData ("AT+CMGS=\"" ++ phone ++ "\"" ++ "\r")],
          by simp [SendSMS, hw, hp], ?_⟩
        intro e he
        exact ⟨"AT+CMGS=\"" ++ phone ++ "\"" ++ "\r", by simpa using he⟩
      · by_cases hm : inp.writeMsgOk = false
        · refine ⟨[Ev.writeData ("AT+CMGS=\"" ++ phone ++ "\"" ++ "\r")],
            by simp [SendSMS, hw, hp, hm], ?_⟩
          intro e he
          exact ⟨"AT+CMGS=\"" ++ phone ++ "\"" ++ "\r", by simpa using he⟩
        · refine ⟨[Ev.writeData ("AT+CMGS=\"" ++ phone ++ "\"" ++ "\r"),
              Ev.writeData (msg ++ "\x1A")], ?_, ?_⟩
          · rcases hr : smsRespOutcome inp.finalChunks "" with _ | (_ | r) <;>
              simp [SendSMS, hw, hp, hm, hr]
          · intro e he
            rcases List.mem_cons.mp he with h1 | h2
            · exact ⟨_, h1⟩
            · exact ⟨_, by simpa using h2⟩

/-! ## Claim C9 -/

theorem promptScan_mem :
    ∀ (bs acc : List Char), (promptScan bs acc).2 = true → '>' ∈ acc ∨ '>' ∈ bs := by
  intro bs
  induction bs with
  | nil => intro acc h; simp [promptScan] at h
  | cons b rest ih =>
    intro acc h
    simp only [promptScan] at h
    by_cases hc : ((acc ++ [b]).contains '>') = true
    · rw [if_pos hc] at h
      have hmem : '>' ∈ acc ++ [b] := by simpa using hc
      rcases List.mem_append.mp hmem with h1 | h2
      · exact Or.inl h1
      · simp at h2
        exact Or.inr (by rw [h2]; exact List.mem_cons_self b rest)
    · rw [if_neg hc] at h
      rcases ih (acc ++ [b]) h with h1 | h2
      · rcases List.mem_append.mp h1 with ha | hb
        · exact Or.inl ha
        · simp at hb
          exact Or.inr (by rw [hb]; exact List.mem_cons_self b rest)
      · exact Or.inr (List.mem_cons_of_mem b h2)

/-- Claim C9: on a successful SendSMS run the transport sees exactly,
in order, the string AT+CMGS="<phoneNumber>" followed by a single
carriage return (no newline), and — only reachable once a '>' byte was
observed among the bytes polled for the prompt — the message text
followed by the single Ctrl-Z byte 0x1A; when the prompt is never
observed the second write does not happen and the call fails. -/
theorem c9_send_wire_protocol (phone msg : String) (inp : SendSMSIn) :
    ((SendSMS phone msg inp).1 = none →
       writesOf (SendSMS phone msg inp).2
         = ["AT+CMGS=\"" ++ phone ++ "\"" ++ "\r", msg ++ "\x1A"] ∧
       (promptScan inp.promptBytes []).2 = true ∧ '>' ∈ inp.promptBytes) ∧
    ((promptScan inp.promptBytes []).2 = false →
       writesOf (SendSMS phone msg inp).2
         = (if inp.writeCmdOk then ["AT+CMGS=\"" ++ phone ++ "\"" ++ "\r"] else []) ∧
       (SendSMS phone msg inp).1 ≠ none) := by
  constructor
  · intro hok
    by_cases hw : inp.writeCmdOk = false
    · simp [SendSMS, hw] at hok
    · by_cases hp : (promptScan inp.promptBytes []).2 = false
      · simp [SendSMS, hw, hp] at hok
      · by_cases hm : inp.writeMsgOk = false
        · simp [SendSMS, hw, hp, hm] at hok
        · have hptrue : (promptScan inp.promptBytes []).2 = true := by
            simpa using hp
          refine ⟨?_, hptrue, ?_⟩
          · rcases hr : smsRespOutcome inp.finalChunks "" with _ | (_ | r) <;>
              simp [SendSMS, hw, hp, hm, hr, writesOf] at hok ⊢
          · rcases promptScan_mem inp.promptBytes [] hptrue with h1 | h2
            · simp at h1
            · exact h2
  · intro hp
    by_cases hw : inp.writeCmdOk = false
    · refine ⟨?_, ?_⟩
      · simp [SendSMS, hw, writesOf]
      · simp [SendSMS, hw]
    · refine ⟨?_, ?_⟩
      · simp [SendSMS, hw, hp, writesOf]
      · simp [SendSMS, hw, hp]

/-- Witness for claim C9: the mock transaction of the repository's
TestSendSMS — prompt then +CMGS: acknowledgment — yields exactly the
two protocol writes, and the prompt byte was observed. -/
theorem c9_witness :
    writesOf (SendSMS ("+1234567890") ("Test message")
        ⟨true, ['\r', '\n', '>', ' '], true, ["\r\n+CMGS: 123\r\nOK\r\n"]⟩).2
      = ["AT+CMGS=\"" ++ "+1234567890" ++ "\"" ++ "\r", "Test message" ++ "\x1A"] ∧
    (promptScan ['\r', '\n', '>', ' '] []).2 = true ∧
    '>' ∈ ['\r', '\n', '>', ' '] :=
  (c9_send_wire_protocol ("+1234567890") ("Test message")
    ⟨true, ['\r', '\n', '>', ' '], true, ["\r\n+CMGS: 123\r\nOK\r\n"]⟩).1 (by decide)

/-! ## Claim C10 -/

theorem chanOps_false_nil : ∀ evs : List Ev, chanOpsOfTrace false evs = [] := by
  intro evs
  induction evs with
  | nil => rfl
  | cons e rest ih =>
    cases e <;> simp [chanOpsOfTrace, chanOpsOfEv, pauseListener, resumeListener] at ih ⊢ <;>
      exact ih

/-- Claim C10: with the listening flag false (ListenForIncomingSMS
never called), pauseListener and resumeListener perform no channel
operation at all, so sendATCommand, SendSMS and all the public
read/delete/query operations run with an empty channel-operation trace
— nothing ever blocks on the handshake. -/
theorem c10_no_handshake_when_not_listening :
    pauseListener false = [] ∧ resumeListener false = [] ∧
    (∀ command writeOk stream,
      chanOpsOfTrace false (sendATCommandEv command writeOk stream).2 = []) ∧
    (∀ phone msg inp, chanOpsOfTrace false (SendSMS phone msg inp).2 = []) ∧
    (∀ writeOk stream, chanOpsOfTrace false (ReadSMS writeOk stream).2 = []) ∧
    (∀ writeOk stream, chanOpsOfTrace false (ReadNewSMS writeOk stream).2 = []) ∧
    (∀ idx writeOk stream, chanOpsOfTrace false (DeleteSMS idx writeOk stream).2 = []) ∧
    (∀ idx writeOk stream, chanOpsOfTrace false (readSMSByIndex idx writeOk stream).2 = []) ∧
    (∀ writeOk stream, chanOpsOfTrace false (GetModemInfo writeOk stream).2 = []) ∧
    ∀ writeOk stream, chanOpsOfTrace false (GetSignalStrength writeOk stream).2 = [] := by
  refine ⟨rfl, rfl, fun _ _ _ => chanOps_false_nil _, fun _ _ _ => chanOps_false_nil _,
    fun _ _ => chanOps_false_nil _, fun _ _ => chanOps_false_nil _,
    fun _ _ _ => chanOps_false_nil _, fun _ _ _ => chanOps_false_nil _,
    fun _ _ => chanOps_false_nil _, fun _ _ => chanOps_false_nil _⟩

end SmsHandler
